import Mathlib

/- Verification development for the AI-ETCH wafer-metrology transforms.

   Embedded sources:
   - src/area.py      : split_zone_data_x
   - src/rename.py    : ColumnRenameMapper.process, _rename_columns_polishAC,
                        _rename_columns_polishBD, _cal_thk_from_raw_value

   Tables are embedded as a list of named columns plus a list of rows, each
   row carrying its (column name, cell value) pairs in column order.  Cell
   values are strings, opaque numerics, lists produced by str.split and by
   the float-parsing step, and a missing value (NaN/None).  Parsed float
   tokens are kept in the exact form the token denotes (see PyFloat): no
   arithmetic on or comparison of these values is reachable in the source
   (the numpy calls that would consume them raise NameError first), so the
   embedding only ever constructs them and evaluates them at concrete
   inputs.
-/

/-- The result of Python float() on a string token, kept exact: a finite
result with scaled integer m and k decimal places denotes m divided by 10
to the k (the IEEE-754 rounding CPython applies on top of this exact value
is not modelled, as no reachable code computes with or compares the parsed
values); signed infinities and nan cover the inf/infinity/nan spellings
(the sign of a floating zero or of nan is not tracked). -/
inductive PyFloat where
  | fin (m : Int) (k : Nat)
  | inf (neg : Bool)
  | nan
deriving DecidableEq

/-- Cell values of an in-memory table as used by the sources. -/
inductive Val where
  | str (s : String)
  | num (n : Int)
  | strList (l : List String)
  | numList (l : List PyFloat)
  | null
deriving DecidableEq

/-- A row: (column name, cell value) pairs in column order. -/
abbrev Row := List (String × Val)

/-- A DataFrame: named columns plus rows. -/
structure DataFrame where
  cols : List String
  rows : List Row
deriving DecidableEq

/-- Reading a cell of a row by column name (first matching pair, as pandas
column labels are unique in the embedded pipelines). -/
def getVal (r : Row) (n : String) : Option Val :=
  (r.find? (fun p => p.1 == n)).map Prod.snd

/- ------------------------------------------------------------------ -/
/- src/area.py                                                        -/
/- ------------------------------------------------------------------ -/

/-- Helper for `hasAreaTag`: the character suffix starts with the literal
characters AREA followed by a decimal digit. -/
def areaAt : List Char → Bool
  | 'A' :: 'R' :: 'E' :: 'A' :: c :: _ => c.isDigit
  | _ => false

/-- Embeds re.search of the pattern AREA followed by one or more digits
anywhere in a column name (src/area.py line 5); one digit after AREA
suffices for the search to succeed. -/
def hasAreaTag (s : String) : Bool :=
  s.data.tails.any areaAt

/-- The Python exception text raised by src/area.py line 19: `metrics` is
built as a set (line 14) but the loop calls `metrics.append(metric)`,
and Python sets have no append method. -/
def setAppendErr : String := "AttributeError: set object has no attribute append"

/-- Embedding of split_zone_data_x (src/area.py lines 4-67).

Lines 5-10: partition the columns by the AREA-digit pattern; when no column
matches, print an informational message and return the input unchanged.

Line 14 initialises `metrics = set()` and line 19 calls `metrics.append(...)`
inside `for col in area_col`, so on every input with at least one matching
column the first loop iteration raises AttributeError to the caller.  All
code from line 21 on (metric disambiguation, melt, concat with its retry,
merge, indicator synthesis) is unreachable, hence the embedding ends in the
error at that point. -/
def split_zone_data_x (df : DataFrame) : Except String DataFrame :=
  let area_col := df.cols.filter hasAreaTag
  if area_col.isEmpty then Except.ok df
  else Except.error setAppendErr

/- Concrete input tables for the zone-splitting claims. -/

/-- The scenario table of the spec: columns WAFER_ID, A_AREA1, A_AREA2, OTHER
for wafers W1 and W2. -/
def dfScenario : DataFrame :=
  { cols := ["WAFER_ID", "A_AREA1", "A_AREA2", "OTHER"],
    rows :=
      [[("WAFER_ID", Val.str "W1"), ("A_AREA1", Val.num 10), ("A_AREA2", Val.num 11), ("OTHER", Val.str "o1")],
       [("WAFER_ID", Val.str "W2"), ("A_AREA1", Val.num 20), ("A_AREA2", Val.num 21), ("OTHER", Val.str "o2")]] }

/-- A table carrying a duplicate (WAFER_ID, AREA) pair for one metric:
M_AREA1 and M_AREA1_2 both reduce to the metric key M_ and both carry zone 1,
the duplicate-key situation the combine/retry of lines 52-56 is about. -/
def dfDupZone : DataFrame :=
  { cols := ["WAFER_ID", "M_AREA1", "M_AREA1_2"],
    rows := [[("WAFER_ID", Val.str "W1"), ("M_AREA1", Val.num 1), ("M_AREA1_2", Val.num 2)]] }

/-- A minimal table with a single zone-indexed column. -/
def dfOneZone : DataFrame :=
  { cols := ["WAFER_ID", "B_AREA1"],
    rows := [[("WAFER_ID", Val.str "W1"), ("B_AREA1", Val.num 5)]] }

/-- A table with an AREA-like column used to witness the crash side of C2. -/
def dfZoneW : DataFrame :=
  { cols := ["WAFER_ID", "THK_AREA3"],
    rows := [[("WAFER_ID", Val.str "W9"), ("THK_AREA3", Val.num 7)]] }

/-- A table with no zone-indexed column (AREA without a following digit does
not match the pattern). -/
def dfNoZone : DataFrame :=
  { cols := ["WAFER_ID", "AREA_NAME", "OTHER"],
    rows := [[("WAFER_ID", Val.str "W1"), ("AREA_NAME", Val.str "left"), ("OTHER", Val.num 3)]] }

/- ------------------------------------------------------------------ -/
/- Theorems for the zone-splitting claims                             -/
/- ------------------------------------------------------------------ -/

/-- The emptiness of the AREA-column partition, as a boolean identity used
to case-split split_zone_data_x. -/
theorem isEmpty_filter_area (l : List String) :
    (l.filter hasAreaTag).isEmpty = l.all (fun c => !hasAreaTag c) := by
  induction l with
  | nil => rfl
  | cons c t ih =>
    by_cases hc : hasAreaTag c
    · simp [List.filter_cons, hc]
    · simp [List.filter_cons, hc, ih]

/-- C1: the spec scenario (columns WAFER_ID, A_AREA1, A_AREA2, OTHER, wafers
W1 and W2) is claimed to yield two zone rows per wafer with indicator
columns; evaluating the embedded split_zone_data_x at that table shows the
code instead raises AttributeError (set has no append, src/area.py lines
14 and 19) before any reshaping. -/
theorem c1_crash_on_scenario :
    split_zone_data_x dfScenario = Except.error setAppendErr := rfl

/-- C2: split_zone_data_x returns normally (with its input) exactly when no
column name matches AREA followed by digits; whenever at least one column
matches, the metric-collection loop calls append on a set and the function
raises to the caller. -/
theorem c2_ok_iff_no_area (df : DataFrame) :
    (split_zone_data_x df = Except.ok df ↔ df.cols.all (fun c => !hasAreaTag c) = true) ∧
    (df.cols.any hasAreaTag = true → split_zone_data_x df = Except.error setAppendErr) := by
  constructor
  · rcases hall : df.cols.all (fun c => !hasAreaTag c) with _ | _
    · have herr : split_zone_data_x df = Except.error setAppendErr := by
        simp only [split_zone_data_x]
        rw [isEmpty_filter_area, hall]
        simp
      rw [herr]
      simp
    · have hok : split_zone_data_x df = Except.ok df := by
        simp only [split_zone_data_x]
        rw [isEmpty_filter_area, hall]
        simp
      simp [hok]
  · intro hany
    have hall : df.cols.all (fun c => !hasAreaTag c) = false := by
      rcases List.any_eq_true.mp hany with ⟨c, hc, hp⟩
      rcases h2 : df.cols.all (fun c => !hasAreaTag c) with _ | _
      · rfl
      · exfalso
        have := List.all_eq_true.mp h2 c hc
        simp [hp] at this
    simp only [split_zone_data_x]
    rw [isEmpty_filter_area, hall]
    simp

/-- C2 witness: at a concrete table with an AREA-indexed column the function
raises the set-append AttributeError. -/
theorem c2_witness : split_zone_data_x dfZoneW = Except.error setAppendErr :=
  (c2_ok_iff_no_area dfZoneW).2 (by decide)

/-- C5: the claimed once-retried combine with an error naming the offending
metric is never exercised: at a table whose zone columns produce a duplicate
(WAFER_ID, AREA) key for one metric, the code raises AttributeError at the
metric-collection step (src/area.py line 19), before lines 52-56 run. -/
theorem c5_crash_before_combine :
    split_zone_data_x dfDupZone = Except.error setAppendErr := rfl

/-- C6: the claimed one-hot indicator invariant concerns the reshaped output;
evaluating the embedded function at a table with a zone-indexed column shows
no reshaped output is ever produced (AttributeError at src/area.py line 19),
so no output row ever carries the AREA1..AREA8 indicator columns. -/
theorem c6_crash_no_output :
    split_zone_data_x dfOneZone = Except.error setAppendErr := rfl

/-- C9: for every input with no column matching AREA followed by digits,
split_zone_data_x returns its input unchanged (src/area.py lines 5-10). -/
theorem c9_identity_no_area (df : DataFrame)
    (h : df.cols.all (fun c => !hasAreaTag c) = true) :
    split_zone_data_x df = Except.ok df := by
  unfold split_zone_data_x
  rw [List.all_eq_true] at h
  have : df.cols.filter hasAreaTag = [] := by
    rw [List.filter_eq_nil_iff]
    intro c hc
    simpa using h c hc
  simp [this]

/-- C9 witness: a concrete table whose AREA-like column name has no digit
after AREA is returned unchanged. -/
theorem c9_witness : split_zone_data_x dfNoZone = Except.ok dfNoZone :=
  c9_identity_no_area dfNoZone (by decide)

/- ------------------------------------------------------------------ -/
/- src/rename.py : derived thickness computation                      -/
/- ------------------------------------------------------------------ -/

/-- Structural model of splitting a character list on a separator, agreeing
with Python str.split on a one-character separator (the empty string splits
to the one-element list of the empty string, separators at the ends produce
empty fields). -/
def splitOnChar (sep : Char) : List Char → List (List Char)
  | [] => [[]]
  | c :: rest =>
      match splitOnChar sep rest with
      | [] => if c = sep then [[], []] else [[c]]
      | h :: t => if c = sep then [] :: h :: t else (c :: h) :: t

/-- ASCII whitespace stripped by Python float() around a token (space, tab,
newline, carriage return, vertical tab, form feed). -/
def isSpaceChar (c : Char) : Bool :=
  c == ' ' || c == '\t' || c == '\n' || c == '\r' || c.toNat == 11 || c.toNat == 12

/-- Value and digit count of the tail of a Python digitpart: digits with
single underscores allowed between digits (PEP 515). -/
def digitsUAux (acc : Nat) (cnt : Nat) : List Char → Option (Nat × Nat)
  | [] => some (acc, cnt)
  | '_' :: c :: rest =>
      if c.isDigit then digitsUAux (acc * 10 + (c.toNat - 48)) (cnt + 1) rest
      else none
  | c :: rest =>
      if c.isDigit then digitsUAux (acc * 10 + (c.toNat - 48)) (cnt + 1) rest
      else none

/-- A Python digitpart: digit (["_"] digit)*.  Returns its value and the
number of digits (underscores not counted). -/
def digitsU : List Char → Option (Nat × Nat)
  | [] => none
  | c :: rest =>
      if c.isDigit then digitsUAux (c.toNat - 48) 1 rest
      else none

/-- The mantissa of a float literal: digitpart, or digitpart "." digitpart
with either side (not both) optional.  Returns the scaled integer and the
number of fractional digits. -/
def parseMantissa (l : List Char) : Option (Nat × Nat) :=
  match splitOnChar '.' l with
  | [a] => (digitsU a).map (fun p => (p.1, 0))
  | [a, b] =>
      if a.isEmpty && b.isEmpty then none
      else if a.isEmpty then (digitsU b).map (fun p => (p.1, p.2))
      else if b.isEmpty then (digitsU a).map (fun p => (p.1, 0))
      else
        match digitsU a, digitsU b with
        | some pa, some pb => some (pa.1 * 10 ^ pb.2 + pb.1, pb.2)
        | _, _ => none
  | _ => none

/-- The exponent part after e: optional sign, then a digitpart. -/
def parseExp : List Char → Option Int
  | '-' :: r => (digitsU r).map (fun p => -(p.1 : Int))
  | '+' :: r => (digitsU r).map (fun p => (p.1 : Int))
  | r => (digitsU r).map (fun p => (p.1 : Int))

/-- Exact value of sign, mantissa (m, k fractional digits) and decimal
exponent e, normalised to the scaled-integer form of PyFloat. -/
def scaleFin (neg : Bool) (m : Nat) (k : Nat) (e : Int) : PyFloat :=
  let sm : Int := if neg then -(m : Int) else (m : Int)
  let ex : Int := e - (k : Int)
  if 0 ≤ ex then PyFloat.fin (sm * 10 ^ ex.toNat) 0
  else PyFloat.fin sm (-ex).toNat

/-- The body of a float token after whitespace and sign: the spellings
inf, infinity and nan (case-insensitive), or a decimal literal
mantissa["e"[sign]digits].  Lowercasing the whole body is sound because
any letter other than those of e/inf/infinity/nan fails the digit parsers
either way. -/
def parseBody (neg : Bool) (l : List Char) : Option PyFloat :=
  let low := l.map Char.toLower
  if low = "inf".data || low = "infinity".data then some (PyFloat.inf neg)
  else if low = "nan".data then some PyFloat.nan
  else
    match splitOnChar 'e' low with
    | [mant] => (parseMantissa mant).map (fun p => scaleFin neg p.1 p.2 0)
    | [mant, ex] =>
        match parseMantissa mant, parseExp ex with
        | some p, some e => some (scaleFin neg p.1 p.2 e)
        | _, _ => none
    | _ => none

/-- Models Python float() on an ASCII string token: strip surrounding
whitespace, take an optional sign, then parse a decimal literal (with
optional fraction, optional exponent and PEP 515 underscores between
digits) or one of the spellings inf/infinity/nan, case-insensitively.
Tokens such as " 2.0", "1e5", "1_0.5", "+.5E-2", "-inf" and "NAN" are
accepted exactly as float() accepts them; anything float() rejects
(including "", ".", "x", "1..2", "1e", "_1", "1__0") is rejected.  The
unicode-digit transliteration CPython performs before parsing is outside
the model: the raw-value fields this parser is applied to are ASCII
comma-separated readings. -/
def parseFloat (s : String) : Option PyFloat :=
  let l := ((s.data.dropWhile isSpaceChar).reverse.dropWhile isSpaceChar).reverse
  match l with
  | '-' :: r => parseBody true r
  | '+' :: r => parseBody false r
  | r => parseBody false r

/-- fillna('') followed by .str.split(',') on one cell (src/rename.py lines
204 and 207): a missing value becomes the empty string (whose split is the
one-element list of the empty string), strings split on commas, and the .str
accessor yields a missing value on non-string cells. -/
def splitRawVal : Val → Val
  | Val.str s => Val.strList ((splitOnChar ',' s.data).map String.mk)
  | Val.null => Val.strList [""]
  | _ => Val.null

/-- Pandas column assignment on one row: overwrite the pairs of an existing
column, or append a new column at the end. -/
def setCol (n : String) (v : Val) (r : Row) : Row :=
  if r.any (fun p => p.1 == n) then
    r.map (fun p => if p.1 == n then (n, v) else p)
  else r ++ [(n, v)]

/-- Pandas column assignment df[n] = f(row) applied frame-wide: per-row
values, the column appended to the frame if new. -/
def assignCol (n : String) (f : Row → Val) (df : DataFrame) : DataFrame :=
  { cols := if df.cols.contains n then df.cols else df.cols ++ [n],
    rows := df.rows.map (fun r => setCol n (f r) r) }

/-- The list comprehension [float(i) for i in x if i != ''] (src/rename.py
lines 205 and 208) on one cell: defined only on the string lists produced by
the split step (iterating a missing value raises TypeError); fails when any
retained token is not a float literal, succeeds with the parsed list
otherwise. -/
def parseListVal : Val → Option Val
  | Val.strList l =>
      let toks := l.filter (fun t => t != "")
      if toks.all (fun t => (parseFloat t).isSome) then
        some (Val.numList (toks.filterMap parseFloat))
      else none
  | _ => none

/-- Line 204 of src/rename.py: assign the comma-split of PRE_GLB_RAW_VALUE
to PRE_VALUE_LIST. -/
def preSplit (df : DataFrame) : DataFrame :=
  assignCol "PRE_VALUE_LIST"
    (fun r => splitRawVal ((getVal r "PRE_GLB_RAW_VALUE").getD Val.null)) df

/-- The PRE_VALUE_LIST cell of a row parses as a float list. -/
def rowParsesPre (r : Row) : Bool :=
  (parseListVal ((getVal r "PRE_VALUE_LIST").getD Val.null)).isSome

/-- Line 205 of src/rename.py: replace PRE_VALUE_LIST by its parsed float
list (only taken when every row parses). -/
def preParse (df : DataFrame) : DataFrame :=
  assignCol "PRE_VALUE_LIST"
    (fun r => (parseListVal ((getVal r "PRE_VALUE_LIST").getD Val.null)).getD Val.null) df

/-- Line 207 of src/rename.py: assign the comma-split of PST_GLB_RAW_VALUE
to PST_VALUE_LIST. -/
def pstSplit (df : DataFrame) : DataFrame :=
  assignCol "PST_VALUE_LIST"
    (fun r => splitRawVal ((getVal r "PST_GLB_RAW_VALUE").getD Val.null)) df

/-- The PST_VALUE_LIST cell of a row parses as a float list. -/
def rowParsesPst (r : Row) : Bool :=
  (parseListVal ((getVal r "PST_VALUE_LIST").getD Val.null)).isSome

/-- Line 208 of src/rename.py: replace PST_VALUE_LIST by its parsed float
list (only taken when every row parses). -/
def pstParse (df : DataFrame) : DataFrame :=
  assignCol "PST_VALUE_LIST"
    (fun r => (parseListVal ((getVal r "PST_VALUE_LIST").getD Val.null)).getD Val.null) df

/-- The try block of _cal_thk_from_raw_value (src/rename.py lines 203-215),
with the state of the in-place-mutated frame carried into the except arm.
Stages, in source order:
line 204 reads PRE_GLB_RAW_VALUE (KeyError before any mutation when that
column is absent) and assigns the comma-split lists; line 205 parses every
token of every row, all-or-nothing (a ValueError leaves the split lists in
place); lines 207-208 do the same for PST; line 210 then evaluates
df[PRE_VALUE_LIST].apply(lambda x: np.mean(x) if x else np.nan), and since
rename.py never imports numpy this raises NameError on the first row
whatever the data, so the function never reaches the thickness-column
assignments (lines 210-211 results) or the drop at line 213.  The except arm
(lines 216-218) logs and returns the frame as mutated so far, which this
embedding models by carrying that frame in the error value. -/
def calPipeline (df : DataFrame) : Except DataFrame DataFrame :=
  if !(df.cols.contains "PRE_GLB_RAW_VALUE") then Except.error df
  else if !((preSplit df).rows.all rowParsesPre) then Except.error (preSplit df)
  else if !((preParse (preSplit df)).cols.contains "PST_GLB_RAW_VALUE") then
    Except.error (preParse (preSplit df))
  else if !((pstSplit (preParse (preSplit df))).rows.all rowParsesPst) then
    Except.error (pstSplit (preParse (preSplit df)))
  else Except.error (pstParse (pstSplit (preParse (preSplit df))))

/-- Embedding of _cal_thk_from_raw_value (src/rename.py lines 190-218):
empty frames are returned at once; otherwise the try block runs and the
except arm returns the frame in its mutated-so-far state (the success arm
of the try block is unreachable, see calPipeline). -/
def cal_thk_from_raw_value (df : DataFrame) : DataFrame :=
  if df.rows.isEmpty then df
  else
    match calPipeline df with
    | Except.ok d => d
    | Except.error d => d

/-- The PRE raw-value field of a row splits and parses without error. -/
def rawPreParses (r : Row) : Bool :=
  (parseListVal (splitRawVal ((getVal r "PRE_GLB_RAW_VALUE").getD Val.null))).isSome

/-- The PST raw-value field of a row splits and parses without error. -/
def rawPstParses (r : Row) : Bool :=
  (parseListVal (splitRawVal ((getVal r "PST_GLB_RAW_VALUE").getD Val.null))).isSome

/-- One-row table with well-formed raw-value fields: the spec says it yields
mean 2.0 in a derived thickness column. -/
def dfThkGood : DataFrame :=
  { cols := ["PRE_GLB_RAW_VALUE", "PST_GLB_RAW_VALUE"],
    rows := [[("PRE_GLB_RAW_VALUE", Val.str "1.0,2.0,3.0"),
              ("PST_GLB_RAW_VALUE", Val.str "4.0")]] }

/-- One-row table with a malformed token in PRE_GLB_RAW_VALUE. -/
def dfThkBad : DataFrame :=
  { cols := ["PRE_GLB_RAW_VALUE", "PST_GLB_RAW_VALUE"],
    rows := [[("PRE_GLB_RAW_VALUE", Val.str "1.0,x,3.0"),
              ("PST_GLB_RAW_VALUE", Val.str "4.0")]] }

/-- One-row table whose PRE field parses (the whitespace-padded token
" 2.0" is accepted by float()) and whose PST field has a malformed
token, so the failure occurs at the later parse (src/rename.py line
208). -/
def dfThkBadPst : DataFrame :=
  { cols := ["PRE_GLB_RAW_VALUE", "PST_GLB_RAW_VALUE"],
    rows := [[("PRE_GLB_RAW_VALUE", Val.str "1.0, 2.0"),
              ("PST_GLB_RAW_VALUE", Val.str "nope")]] }

/- ------------------------------------------------------------------ -/
/- src/rename.py : parameter mapping and module merge                 -/
/- ------------------------------------------------------------------ -/

/-- One record of the para_info mapping table (fields PARA_NAME_WITH_CODE,
FROM_SRC_FIELD, PARA_NAME); all fields nullable. -/
structure ParaRow where
  code : Option String
  src : Option String
  para : Option String
deriving DecidableEq

/-- Substring containment (pandas str.contains with a plain pattern). -/
def containsSubstr (s pat : String) : Bool :=
  s.data.tails.any (fun t => pat.data.isPrefixOf t)

/-- str.contains(marker, na=False) on a nullable field. -/
def optContains (o : Option String) (pat : String) : Bool :=
  match o with
  | some s => containsSubstr s pat
  | none => false

/-- The (FROM_SRC_FIELD, PARA_NAME_WITH_CODE) pairs zipped into the rename
dict for one group marker: rows whose canonical-name field contains the
marker (str.contains, na=False), with null source fields dropped, in table
order (src/rename.py lines 150-153 and 177-180). -/
def renamePairs (marker : String) (paraInfo : List ParaRow) : List (String × String) :=
  (paraInfo.filter (fun r => optContains r.code marker)).filterMap
    (fun r =>
      match r.code, r.src with
      | some c, some s => some (s, c)
      | _, _ => none)

/-- One Python dict insertion: overwrite the value of an existing key in
place, append a new key at the end. -/
def dictInsert (d : List (String × String)) (k v : String) : List (String × String) :=
  if d.any (fun p => p.1 == k) then
    d.map (fun p => if p.1 == k then (k, v) else p)
  else d ++ [(k, v)]

/-- dict(zip(keys, values)) built left to right: last write wins on a
duplicate key, key order is first occurrence. -/
def dictOfZip (ps : List (String × String)) : List (String × String) :=
  ps.foldl (fun d p => dictInsert d p.1 p.2) []

/-- Python dict lookup (keys are unique by construction of dictOfZip). -/
def dictGet (d : List (String × String)) (k : String) : Option String :=
  (d.find? (fun p => p.1 == k)).map Prod.snd

/-- df.rename(columns=dict) on one label: renamed when the label is a key
of the dict, kept otherwise. -/
def renameLabel (d : List (String × String)) (c : String) : String :=
  (dictGet d c).getD c

/-- df.rename(columns=dict) frame-wide. -/
def renameFrame (d : List (String × String)) (df : DataFrame) : DataFrame :=
  { cols := df.cols.map (renameLabel d),
    rows := df.rows.map (fun r => r.map (fun p => (renameLabel d p.1, p.2))) }

/-- Row selection by a boolean mask, df[mask]. -/
def filterRows (q : Row → Bool) (df : DataFrame) : DataFrame :=
  { cols := df.cols, rows := df.rows.filter q }

/-- df.drop(columns=[c], errors="ignore"). -/
def dropColFrame (c : String) (df : DataFrame) : DataFrame :=
  { cols := df.cols.filter (fun x => x != c),
    rows := df.rows.map (fun r => r.filter (fun p => p.1 != c)) }

/-- df.drop(columns=cs, errors="ignore"). -/
def dropColsFrame (cs : List String) (df : DataFrame) : DataFrame :=
  { cols := df.cols.filter (fun x => !(cs.contains x)),
    rows := df.rows.map (fun r => r.filter (fun p => !(cs.contains p.1))) }

/-- The module tag of a row as the string pandas sees after
data["MODULE"].fillna("").astype(str) (src/rename.py line 75): missing
values become the empty string, strings are kept, numbers print; the
MODULE columns of this pipeline never carry list cells, which therefore
also map to the empty string. -/
def moduleStr (r : Row) : String :=
  match (getVal r "MODULE").getD Val.null with
  | Val.str s => s
  | Val.num n => toString n
  | _ => ""

/-- ASCII lowering for the case-insensitive module markers. -/
def lowerStr (s : String) : String :=
  String.mk (s.data.map Char.toLower)

/-- module_series.str.contains(marker, case=False, na=False) for one row
(src/rename.py lines 77-80). -/
def moduleHas (marker : String) (r : Row) : Bool :=
  containsSubstr (lowerStr (moduleStr r)) (lowerStr marker)

/-- The PolishA subset with its MODULE column dropped (src/rename.py lines
77 and 88-89). -/
def subsetA (data : DataFrame) : DataFrame :=
  dropColFrame "MODULE" (filterRows (moduleHas "PolishA") data)

/-- The PolishB subset with its MODULE column dropped. -/
def subsetB (data : DataFrame) : DataFrame :=
  dropColFrame "MODULE" (filterRows (moduleHas "PolishB") data)

/-- The PolishC subset with its MODULE column dropped. -/
def subsetC (data : DataFrame) : DataFrame :=
  dropColFrame "MODULE" (filterRows (moduleHas "PolishC") data)

/-- The PolishD subset with its MODULE column dropped. -/
def subsetD (data : DataFrame) : DataFrame :=
  dropColFrame "MODULE" (filterRows (moduleHas "PolishD") data)

/-- Embedding of _rename_columns_polishAC (src/rename.py lines 136-161):
the frame is returned unchanged when it or the mapping table is empty
(pandas frame emptiness is having no rows here; the pipeline frames always
keep their column labels), else its columns are renamed through the P1_
dict built from para_info; nothing in the try block can raise, so the
except arm (lines 158-159) is dead. -/
def rename_columns_polishAC (paraInfo : List ParaRow) (df : DataFrame) : DataFrame :=
  if df.rows.isEmpty || paraInfo.isEmpty then df
  else renameFrame (dictOfZip (renamePairs "P1_" paraInfo)) df

/-- Embedding of _rename_columns_polishBD (src/rename.py lines 163-188),
the P2_ counterpart. -/
def rename_columns_polishBD (paraInfo : List ParaRow) (df : DataFrame) : DataFrame :=
  if df.rows.isEmpty || paraInfo.isEmpty then df
  else renameFrame (dictOfZip (renamePairs "P2_" paraInfo)) df

/-- self.base_col (src/rename.py lines 23-28). -/
def base_col : List String :=
  ["PROC_EQP", "PRODUCT", "RECIPE",
   "PRE_GLB_RAW_VALUE", "PST_GLB_RAW_VALUE",
   "PRE_M1_TIME", "PST_M1_TIME",
   "LOT_ID", "X_TIME", "LOT"]

/-- The renamed PolishA subset, as merged at src/rename.py line 105. -/
def renamedA (paraInfo : List ParaRow) (data : DataFrame) : DataFrame :=
  rename_columns_polishAC paraInfo (subsetA data)

/-- The renamed PolishC subset. -/
def renamedC (paraInfo : List ParaRow) (data : DataFrame) : DataFrame :=
  rename_columns_polishAC paraInfo (subsetC data)

/-- The renamed PolishB subset with the base columns dropped (src/rename.py
lines 93 and 98), as merged at line 107. -/
def renamedBdropped (paraInfo : List ParaRow) (data : DataFrame) : DataFrame :=
  dropColsFrame base_col (rename_columns_polishBD paraInfo (subsetB data))

/-- The renamed PolishD subset with the base columns dropped. -/
def renamedDdropped (paraInfo : List ParaRow) (data : DataFrame) : DataFrame :=
  dropColsFrame base_col (rename_columns_polishBD paraInfo (subsetD data))

/-- Suffix rule of pd.merge(on="WAFER_ID"): a non-key label shared with the
other frame gets the suffix. -/
def suffixIf (other : List String) (sfx : String) (c : String) : String :=
  if c == "WAFER_ID" then c
  else if other.contains c then c ++ sfx
  else c

/-- Key equality for the join: both rows carry a WAFER_ID cell and the
values agree (pandas also matches missing keys with each other, which the
null-equals-null case of Val equality mirrors). -/
def keyMatch (ra rb : Row) : Bool :=
  match getVal ra "WAFER_ID", getVal rb "WAFER_ID" with
  | some a, some b => decide (a = b)
  | _, _ => false

/-- One joined row: the left row with _x suffixes on shared non-key labels,
then the right row without its key cells and with _y suffixes. -/
def joinRow (acols bcols : List String) (ra rb : Row) : Row :=
  ra.map (fun p => (suffixIf bcols "_x" p.1, p.2)) ++
    (rb.filter (fun p => p.1 != "WAFER_ID")).map
      (fun p => (suffixIf acols "_y" p.1, p.2))

/-- pd.merge(A, B, on="WAFER_ID", how="inner") (src/rename.py lines 105-110
and 116-121): all pairs of rows with equal keys, in left-row-major order;
only wafers present on both sides survive.  (pandas requires the key column
on both frames and raises KeyError otherwise; theorems about this embedding
carry that presence as a hypothesis.) -/
def mergeInner (A B : DataFrame) : DataFrame :=
  { cols := A.cols.map (suffixIf B.cols "_x") ++
      (B.cols.filter (fun c => c != "WAFER_ID")).map (suffixIf A.cols "_y"),
    rows := A.rows.flatMap (fun ra =>
      (B.rows.filter (fun rb => keyMatch ra rb)).map
        (fun rb => joinRow A.cols B.cols ra rb)) }

/-- The AB pairing: inner merge of the renamed A and (base-dropped) renamed
B subsets, with the literal POLISH column set to AB (src/rename.py lines
104-112). -/
def polishAB (paraInfo : List ParaRow) (data : DataFrame) : DataFrame :=
  assignCol "POLISH" (fun _ => Val.str "AB")
    (mergeInner (renamedA paraInfo data) (renamedBdropped paraInfo data))

/-- The CD pairing (src/rename.py lines 115-123). -/
def polishCD (paraInfo : List ParaRow) (data : DataFrame) : DataFrame :=
  assignCol "POLISH" (fun _ => Val.str "CD")
    (mergeInner (renamedC paraInfo data) (renamedDdropped paraInfo data))

/-- pd.concat(frames, ignore_index=True) (src/rename.py line 131): union of
the column sets in order of first appearance; rows keep their own cells (a
cell absent from a row reads as missing, pandas NaN). -/
def concatFrames (dfs : List DataFrame) : DataFrame :=
  { cols := dfs.foldl (fun acc df => acc ++ df.cols.filter (fun c => !(acc.contains c))) [],
    rows := dfs.flatMap (fun df => df.rows) }

/-- Modelled from the spec: BaseMapper.validate_input (imported from
.base_mapper) is not under src/; section 4.3 of the spec treats input
validation as a non-fatal gate that returns the input unchanged, and the
only check the spec names beyond MODULE presence is having data to process,
so the gate is modelled as the frame being non-empty. -/
def validateInput (df : DataFrame) : Bool :=
  !(df.rows.isEmpty)

/-- The merge-and-concatenate tail of ColumnRenameMapper.process
(src/rename.py lines 102-134): each pairing is produced when both of its
renamed subsets are non-empty, and whichever pairings exist are
concatenated row-wise; with neither, an empty frame is returned. -/
def processCore (paraInfo : List ParaRow) (data : DataFrame) : DataFrame :=
  match (if !(renamedA paraInfo data).rows.isEmpty &&
            !(renamedBdropped paraInfo data).rows.isEmpty
         then some (polishAB paraInfo data) else none),
        (if !(renamedC paraInfo data).rows.isEmpty &&
            !(renamedDdropped paraInfo data).rows.isEmpty
         then some (polishCD paraInfo data) else none) with
  | none, none => { cols := [], rows := [] }
  | some ab, none => concatFrames [ab]
  | none, some cd => concatFrames [cd]
  | some ab, some cd => concatFrames [ab, cd]

/-- Embedding of ColumnRenameMapper.process (src/rename.py lines 57-134):
validation gate, MODULE-presence gate, then the subset/rename/merge core. -/
def process (paraInfo : List ParaRow) (data : DataFrame) : DataFrame :=
  if !(validateInput data) then data
  else if !(data.cols.contains "MODULE") then data
  else processCore paraInfo data

/- Concrete inputs for the module-merge claims. -/

/-- A mapping table with two P1_ rows sharing a source field (no nulls, no
P2_ rows). -/
def piDupSrc : List ParaRow :=
  [{ code := some "P1_THK_A", src := some "SRC", para := some "THK_A" },
   { code := some "P1_THK_B", src := some "SRC", para := some "THK_B" }]

/-- A mapping table with two P1_ rows and one P2_ row, distinct source
fields, plus one row with a null source field. -/
def piSizes : List ParaRow :=
  [{ code := some "P1_THK_A", src := some "SRC_A", para := some "THK_A" },
   { code := some "P1_THK_B", src := some "SRC_B", para := some "THK_B" },
   { code := some "P2_THK_C", src := some "SRC_C", para := some "THK_C" },
   { code := some "P1_THK_D", src := none, para := some "THK_D" }]

/-- Wafer table whose PolishA subset holds wafers w1, w2 and whose PolishB
subset holds wafers w2, w3. -/
def dataW7 : DataFrame :=
  { cols := ["WAFER_ID", "MODULE"],
    rows :=
      [[("WAFER_ID", Val.str "w1"), ("MODULE", Val.str "PolishA")],
       [("WAFER_ID", Val.str "w2"), ("MODULE", Val.str "PolishA")],
       [("WAFER_ID", Val.str "w2"), ("MODULE", Val.str "PolishB")],
       [("WAFER_ID", Val.str "w3"), ("MODULE", Val.str "PolishB")]] }

/-- A two-row table producing a single AB pairing row. -/
def dataW10 : DataFrame :=
  { cols := ["WAFER_ID", "MODULE", "X"],
    rows :=
      [[("WAFER_ID", Val.str "w1"), ("MODULE", Val.str "PolishA"), ("X", Val.num 1)],
       [("WAFER_ID", Val.str "w1"), ("MODULE", Val.str "PolishB"), ("X", Val.num 2)]] }

/-- The joined row that processing dataW10 produces. -/
def rowW10 : Row :=
  [("WAFER_ID", Val.str "w1"), ("X_x", Val.num 1), ("X_y", Val.num 2),
   ("POLISH", Val.str "AB")]

/-- A non-empty table without a MODULE column. -/
def dataNoModule : DataFrame :=
  { cols := ["WAFER_ID", "X"],
    rows := [[("WAFER_ID", Val.str "w"), ("X", Val.null)]] }

/-- Wafer values of a frame, row by row. -/
def waferVals (df : DataFrame) : List Val :=
  df.rows.filterMap (fun r => getVal r "WAFER_ID")

/- ------------------------------------------------------------------ -/
/- Helper lemmas for setCol / assignCol                               -/
/- ------------------------------------------------------------------ -/

/-- In the overwrite branch of setCol, the lookup finds the new pair. -/
theorem find_map_set (n : String) (v : Val) (r : Row)
    (hany : r.any (fun p => p.1 == n) = true) :
    (r.map (fun p => if p.1 == n then (n, v) else p)).find? (fun p => p.1 == n)
      = some (n, v) := by
  induction r with
  | nil => simp at hany
  | cons p t ih =>
    by_cases hp : p.1 = n
    · have hh : ((if p.1 == n then (n, v) else p) : String × Val) = (n, v) := by
        simp [hp]
      rw [List.map_cons, hh, List.find?_cons_of_pos]
      simp
    · have hpf : (p.1 == n) = false := by simp [hp]
      rw [List.any_cons, hpf, Bool.false_or] at hany
      have hh : ((if p.1 == n then (n, v) else p) : String × Val) = p := by
        simp [hpf]
      rw [List.map_cons, hh, List.find?_cons_of_neg]
      · exact ih hany
      · simp [hp]

/-- In the append branch of setCol, the lookup reaches the appended pair. -/
theorem find_append_new (n : String) (v : Val) (r : Row)
    (hnone : r.any (fun p => p.1 == n) = false) :
    (r ++ [(n, v)]).find? (fun p => p.1 == n) = some (n, v) := by
  induction r with
  | nil =>
    rw [List.nil_append, List.find?_cons_of_pos]
    simp
  | cons p t ih =>
    rw [List.any_cons] at hnone
    have h1 : (p.1 == n) = false := by
      rcases h : (p.1 == n) with _ | _
      · rfl
      · rw [h] at hnone; simp at hnone
    rw [h1, Bool.false_or] at hnone
    rw [List.cons_append, List.find?_cons_of_neg]
    · exact ih hnone
    · simp [h1]

/-- Reading back a cell just assigned by setCol. -/
theorem getVal_setCol (n : String) (v : Val) (r : Row) :
    getVal (setCol n v r) n = some v := by
  unfold setCol getVal
  by_cases hany : r.any (fun p => p.1 == n) = true
  · rw [if_pos hany, find_map_set n v r hany]
    rfl
  · rw [if_neg hany, find_append_new n v r (Bool.eq_false_iff.mpr hany)]
    rfl

/-- A found element stays found after appending. -/
theorem find_append_some {α : Type} (q : α → Bool) (l1 l2 : List α) (x : α)
    (h : l1.find? q = some x) : (l1 ++ l2).find? q = some x := by
  induction l1 with
  | nil => simp [List.find?] at h
  | cons p t ih =>
    by_cases hp : q p = true
    · rw [List.find?_cons_of_pos _ hp] at h
      rw [List.cons_append, List.find?_cons_of_pos _ hp]
      exact h
    · rw [List.find?_cons_of_neg _ hp] at h
      rw [List.cons_append, List.find?_cons_of_neg _ hp]
      exact ih h

/-- A failed search continues into the appended part. -/
theorem find_append_none {α : Type} (q : α → Bool) (l1 l2 : List α)
    (h : l1.find? q = none) : (l1 ++ l2).find? q = l2.find? q := by
  induction l1 with
  | nil => rfl
  | cons p t ih =>
    by_cases hp : q p = true
    · rw [List.find?_cons_of_pos _ hp] at h
      cases h
    · rw [List.find?_cons_of_neg _ hp] at h
      rw [List.cons_append, List.find?_cons_of_neg _ hp]
      exact ih h

/-- Overwriting a column with another label leaves a lookup untouched. -/
theorem find_map_overwrite_ne (n n' : String) (v : Val)
    (hne : (n == n') = false) (r : Row) :
    (r.map (fun p => if p.1 == n then (n, v) else p)).find? (fun p => p.1 == n')
      = r.find? (fun p => p.1 == n') := by
  induction r with
  | nil => rfl
  | cons p t ih =>
    rw [List.map_cons]
    by_cases hp : (p.1 == n) = true
    · have hpn : p.1 = n := eq_of_beq hp
      have hh : ((if p.1 == n then (n, v) else p) : String × Val) = (n, v) := by
        simp [hp]
      rw [hh, List.find?_cons_of_neg _ (by simp [hne]),
          List.find?_cons_of_neg _ (by rw [hpn]; simp [hne])]
      exact ih
    · have hh : ((if p.1 == n then (n, v) else p) : String × Val) = p := by
        simp [hp]
      rw [hh]
      by_cases hp' : (p.1 == n') = true
      · rw [List.find?_cons_of_pos (p := fun q : String × Val => q.1 == n') _ hp',
          List.find?_cons_of_pos (p := fun q : String × Val => q.1 == n') _ hp']
      · rw [List.find?_cons_of_neg (p := fun q : String × Val => q.1 == n') _ hp',
          List.find?_cons_of_neg (p := fun q : String × Val => q.1 == n') _ hp']
        exact ih

/-- Assigning one column leaves lookups of other columns untouched. -/
theorem getVal_setCol_ne (n n' : String) (v : Val) (r : Row)
    (hne : (n == n') = false) :
    getVal (setCol n v r) n' = getVal r n' := by
  unfold setCol getVal
  by_cases hany : r.any (fun p => p.1 == n) = true
  · rw [if_pos hany, find_map_overwrite_ne n n' v hne r]
  · rw [if_neg hany]
    cases hf : r.find? (fun p => p.1 == n') with
    | some x => rw [find_append_some _ _ _ _ hf]
    | none =>
      rw [find_append_none _ _ _ hf]
      simp [List.find?, hne]

/-- The parse check after the split assignment equals the direct check on
the raw input rows. -/
theorem all_rowParsesPre_preSplit (df : DataFrame) :
    (preSplit df).rows.all rowParsesPre = df.rows.all rawPreParses := by
  unfold preSplit assignCol
  rw [List.all_map]
  have hfx : (rowParsesPre ∘ fun r =>
      setCol "PRE_VALUE_LIST"
        (splitRawVal ((getVal r "PRE_GLB_RAW_VALUE").getD Val.null)) r)
      = rawPreParses := by
    funext r
    unfold Function.comp rowParsesPre rawPreParses
    rw [getVal_setCol]
    rfl
  rw [hfx]

/- ------------------------------------------------------------------ -/
/- Theorems for the derived-thickness claims                          -/
/- ------------------------------------------------------------------ -/

/-- C3: at the spec input 1.0,2.0,3.0 the code is claimed to store mean 2.0
in a derived column; evaluating the embedding shows numpy is never imported
(NameError at src/rename.py line 210, caught at line 216), so the derived
thickness columns never appear and the helper returns the frame with only
the leftover split/parse list columns. -/
theorem c3_no_derived_columns :
    cal_thk_from_raw_value dfThkGood =
      { cols := ["PRE_GLB_RAW_VALUE", "PST_GLB_RAW_VALUE",
                 "PRE_VALUE_LIST", "PST_VALUE_LIST"],
        rows := [[("PRE_GLB_RAW_VALUE", Val.str "1.0,2.0,3.0"),
                  ("PST_GLB_RAW_VALUE", Val.str "4.0"),
                  ("PRE_VALUE_LIST",
                    Val.numList [PyFloat.fin 10 1, PyFloat.fin 20 1, PyFloat.fin 30 1]),
                  ("PST_VALUE_LIST", Val.numList [PyFloat.fin 40 1])]] } ∧
    ((cal_thk_from_raw_value dfThkGood).cols.contains "PRE_GLB_STI_THK_70000"
      || (cal_thk_from_raw_value dfThkGood).cols.contains "PST_GLB_CMP_THK_80000")
      = false := by
  constructor
  · decide
  · decide

/-- C4 counterexample: at the malformed input 1.0,x,3.0 the caught parse
error does not leave the input unmodified; the PRE_VALUE_LIST column
assigned in place before the failing parse remains on the returned frame. -/
theorem c4_not_unmodified : cal_thk_from_raw_value dfThkBad ≠ dfThkBad := by
  decide

/-- The parse check after the PST split assignment equals the direct check
on the rows it is applied to. -/
theorem all_rowParsesPst_pstSplit (df0 : DataFrame) :
    (pstSplit df0).rows.all rowParsesPst = df0.rows.all rawPstParses := by
  unfold pstSplit assignCol
  rw [List.all_map]
  have hfx : (rowParsesPst ∘ fun r =>
      setCol "PST_VALUE_LIST"
        (splitRawVal ((getVal r "PST_GLB_RAW_VALUE").getD Val.null)) r)
      = rawPstParses := by
    funext r
    unfold Function.comp rowParsesPst rawPstParses
    rw [getVal_setCol]
    rfl
  rw [hfx]

/-- The PRE split and parse stages only touch PRE_VALUE_LIST, so whether
the PST raw field parses is unchanged by them. -/
theorem rawPstParses_preParse_preSplit (df : DataFrame) :
    (preParse (preSplit df)).rows.all rawPstParses = df.rows.all rawPstParses := by
  unfold preParse preSplit assignCol
  rw [List.map_map, List.all_map]
  congr 1
  funext r
  unfold Function.comp rawPstParses
  rw [getVal_setCol_ne _ _ _ _ (by decide), getVal_setCol_ne _ _ _ _ (by decide)]

/-- A column present before a column assignment is present after it. -/
theorem assignCol_contains (n : String) (f : Row → Val) (df0 : DataFrame)
    (c : String) (h : df0.cols.contains c = true) :
    (assignCol n f df0).cols.contains c = true := by
  unfold assignCol
  by_cases hin : df0.cols.contains n = true
  · rw [if_pos hin]; exact h
  · rw [if_neg hin]
    have h' : c ∈ df0.cols := by simpa using h
    simp [h']

/-- The split assignment guarantees its own column. -/
theorem preSplit_contains_self (df : DataFrame) :
    (preSplit df).cols.contains "PRE_VALUE_LIST" = true := by
  unfold preSplit assignCol
  by_cases hin : df.cols.contains "PRE_VALUE_LIST" = true
  · rw [if_pos hin]; exact hin
  · rw [if_neg hin]; simp

/-- Re-assigning the present PRE_VALUE_LIST column keeps the column list. -/
theorem preParse_cols (df0 : DataFrame)
    (h : df0.cols.contains "PRE_VALUE_LIST" = true) :
    (preParse df0).cols = df0.cols := by
  unfold preParse assignCol
  rw [if_pos h]

/-- A column absent before a column assignment and different from the
assigned label is absent after it. -/
theorem assignCol_contains_false (n : String) (f : Row → Val) (df0 : DataFrame)
    (c : String) (hc : df0.cols.contains c = false) (hne : (c == n) = false) :
    (assignCol n f df0).cols.contains c = false := by
  unfold assignCol
  by_cases hin : df0.cols.contains n = true
  · rw [if_pos hin]; exact hc
  · rw [if_neg hin]
    have hc' : c ∉ df0.cols := by simpa using hc
    have hne' : c ≠ n := by simpa using hne
    simp [hc', hne']

/-- Whatever state the thickness helper returns, the only columns it can
have added are the two intermediate list columns: in particular the
derived thickness columns are never added. -/
theorem cal_thk_cols_bound (df : DataFrame) (c : String)
    (hc : df.cols.contains c = false)
    (hpre : (c == "PRE_VALUE_LIST") = false)
    (hpst : (c == "PST_VALUE_LIST") = false) :
    (cal_thk_from_raw_value df).cols.contains c = false := by
  have b1 : (preSplit df).cols.contains c = false :=
    assignCol_contains_false _ _ _ _ hc hpre
  have b2 : (preParse (preSplit df)).cols.contains c = false :=
    assignCol_contains_false _ _ _ _ b1 hpre
  have b3 : (pstSplit (preParse (preSplit df))).cols.contains c = false :=
    assignCol_contains_false _ _ _ _ b2 hpst
  have b4 : (pstParse (pstSplit (preParse (preSplit df)))).cols.contains c = false :=
    assignCol_contains_false _ _ _ _ b3 hpst
  unfold cal_thk_from_raw_value calPipeline
  by_cases he : df.rows.isEmpty = true
  · rw [if_pos he]; exact hc
  · rw [if_neg he]
    by_cases k1 : (!(df.cols.contains "PRE_GLB_RAW_VALUE")) = true
    · rw [if_pos k1]; exact hc
    · rw [if_neg k1]
      by_cases k2 : (!((preSplit df).rows.all rowParsesPre)) = true
      · rw [if_pos k2]; exact b1
      · rw [if_neg k2]
        by_cases k3 : (!((preParse (preSplit df)).cols.contains "PST_GLB_RAW_VALUE")) = true
        · rw [if_pos k3]; exact b2
        · rw [if_neg k3]
          by_cases k4 : (!((pstSplit (preParse (preSplit df))).rows.all rowParsesPst)) = true
          · rw [if_pos k4]; exact b3
          · rw [if_neg k4]; exact b4

/-- C4 amended: on a parsing error in the derived-thickness computation
(over a frame carrying both raw-value columns) the error is caught locally
and never propagated and the derived thickness columns are never added, but
the input is not returned unmodified: a failure at the PRE parse (line 205)
returns the input with the PRE_VALUE_LIST split column assigned in place,
and a failure at the PST parse (line 208) returns it with PRE_VALUE_LIST
already parsed and the PST_VALUE_LIST split column assigned as well. -/
theorem c4_caught_with_residue (df : DataFrame)
    (h1 : df.rows.isEmpty = false)
    (h2 : df.cols.contains "PRE_GLB_RAW_VALUE" = true)
    (h3 : df.cols.contains "PST_GLB_RAW_VALUE" = true) :
    (df.rows.all rawPreParses = false →
        cal_thk_from_raw_value df = preSplit df) ∧
      (df.rows.all rawPreParses = true → df.rows.all rawPstParses = false →
        cal_thk_from_raw_value df = pstSplit (preParse (preSplit df))) ∧
      ∀ c : String, df.cols.contains c = false →
        (c == "PRE_VALUE_LIST") = false → (c == "PST_VALUE_LIST") = false →
        (cal_thk_from_raw_value df).cols.contains c = false := by
  refine ⟨?_, ?_, ?_⟩
  · intro hfail
    unfold cal_thk_from_raw_value
    rw [if_neg (by simp [h1])]
    unfold calPipeline
    rw [h2]
    simp only [Bool.not_true, Bool.false_eq_true, if_false]
    rw [all_rowParsesPre_preSplit, hfail]
    simp
  · intro hok hfail
    unfold cal_thk_from_raw_value
    rw [if_neg (by simp [h1])]
    unfold calPipeline
    rw [h2]
    simp only [Bool.not_true, Bool.false_eq_true, if_false]
    rw [all_rowParsesPre_preSplit, hok]
    simp only [Bool.not_true, Bool.false_eq_true, if_false]
    have hcol : (preParse (preSplit df)).cols.contains "PST_GLB_RAW_VALUE" = true := by
      rw [preParse_cols _ (preSplit_contains_self df)]
      exact assignCol_contains _ _ _ _ h3
    rw [hcol]
    simp only [Bool.not_true, Bool.false_eq_true, if_false]
    rw [all_rowParsesPst_pstSplit, rawPstParses_preParse_preSplit, hfail]
    simp
  · intro c hcc hcp hcq
    exact cal_thk_cols_bound df c hcc hcp hcq

/-- C4 witness: the amended statement evaluated at a one-row table failing
at the PRE parse and at a one-row table whose whitespace-padded PRE field
parses but whose PST field fails, discharging every hypothesis by
computation. -/
theorem c4_witness :
    cal_thk_from_raw_value dfThkBad = preSplit dfThkBad ∧
      cal_thk_from_raw_value dfThkBadPst = pstSplit (preParse (preSplit dfThkBadPst)) ∧
      (cal_thk_from_raw_value dfThkBad).cols.contains "PRE_GLB_STI_THK_70000" = false :=
  ⟨(c4_caught_with_residue dfThkBad (by decide) (by decide) (by decide)).1 (by decide),
   (c4_caught_with_residue dfThkBadPst (by decide) (by decide) (by decide)).2.1
     (by decide) (by decide),
   (c4_caught_with_residue dfThkBad (by decide) (by decide) (by decide)).2.2
     "PRE_GLB_STI_THK_70000" (by decide) (by decide) (by decide)⟩

/- ------------------------------------------------------------------ -/
/- Helper lemmas for the rename dictionaries                          -/
/- ------------------------------------------------------------------ -/

/-- The pairs zipped into a group dict are exactly one per retained row:
marker present in the canonical-name field and source field non-null. -/
theorem renamePairs_length (marker : String) (pi : List ParaRow) :
    (renamePairs marker pi).length
      = (pi.filter (fun r => optContains r.code marker && r.src.isSome)).length := by
  induction pi with
  | nil => rfl
  | cons r t ih =>
    by_cases hc : optContains r.code marker = true
    · cases hcode : r.code with
      | none =>
        rw [hcode] at hc
        exact absurd hc (by simp [optContains])
      | some c =>
        cases hsrc : r.src with
        | some s =>
          unfold renamePairs at ih ⊢
          rw [List.filter_cons, if_pos hc, List.filterMap_cons, hcode, hsrc]
          rw [List.filter_cons, if_pos (by rw [hc, hsrc]; rfl)]
          simp [ih]
        | none =>
          unfold renamePairs at ih ⊢
          rw [List.filter_cons, if_pos hc, List.filterMap_cons, hcode, hsrc]
          rw [List.filter_cons, if_neg (by rw [hc, hsrc]; simp)]
          simpa using ih
    · have hcf : optContains r.code marker = false := Bool.eq_false_iff.mpr hc
      unfold renamePairs at ih ⊢
      rw [List.filter_cons, if_neg (by simp [hcf])]
      rw [List.filter_cons, if_neg (by rw [hcf]; simp)]
      exact ih

/-- Inserting a fresh key into a Python dict appends it. -/
theorem dictInsert_fresh (d : List (String × String)) (k v : String)
    (h : d.any (fun p => p.1 == k) = false) :
    dictInsert d k v = d ++ [(k, v)] := by
  unfold dictInsert
  rw [if_neg (by simp [h])]

/-- Building a dict from pairs with pairwise-distinct keys, none already in
the accumulator, grows the accumulator by exactly one entry per pair. -/
theorem dictOfZip_go (ps : List (String × String)) :
    ∀ d : List (String × String),
      (ps.map Prod.fst).Nodup →
      (∀ k ∈ ps.map Prod.fst, d.any (fun p => p.1 == k) = false) →
      (ps.foldl (fun d p => dictInsert d p.1 p.2) d).length = d.length + ps.length := by
  induction ps with
  | nil => intro d _ _; simp
  | cons p t ih =>
    intro d hnd hfresh
    rw [List.map_cons, List.nodup_cons] at hnd
    rw [List.foldl_cons, dictInsert_fresh d p.1 p.2 (hfresh p.1 (by simp))]
    rw [ih (d ++ [(p.1, p.2)]) hnd.2 ?_]
    · simp [Nat.add_assoc, Nat.add_comm 1 t.length]
    · intro k hk
      rw [List.any_append]
      have h1 : d.any (fun q => q.1 == k) = false := hfresh k (by simp [hk])
      have h2 : (p.1 == k) = false := by
        have hne : k ≠ p.1 := fun he => hnd.1 (he ▸ hk)
        simp [Ne.symm hne]
      simp [h1, h2]

/-- C8 counterexample: a mapping table with two P1_-tagged rows, no null
source fields and no P2_ rows, whose rows share a source field; the built
dict has one entry, not two. -/
theorem c8_duplicate_src_collapses :
    (dictOfZip (renamePairs "P1_" piDupSrc)).length
        ≠ (piDupSrc.filter (fun r => optContains r.code "P1_")).length ∧
      piDupSrc.all (fun r => r.src.isSome) = true := by
  constructor
  · decide
  · decide

/-- C8 amended: when the retained source fields are pairwise distinct
within a group, the group dict has exactly one entry per row whose
canonical name contains the group marker and whose source field is
non-null; in particular a row with a null source field contributes no
entry. -/
theorem c8_dict_sizes (pi : List ParaRow)
    (h1 : ((renamePairs "P1_" pi).map Prod.fst).Nodup)
    (h2 : ((renamePairs "P2_" pi).map Prod.fst).Nodup) :
    (dictOfZip (renamePairs "P1_" pi)).length
        = (pi.filter (fun r => optContains r.code "P1_" && r.src.isSome)).length ∧
      (dictOfZip (renamePairs "P2_" pi)).length
        = (pi.filter (fun r => optContains r.code "P2_" && r.src.isSome)).length := by
  constructor
  · unfold dictOfZip
    rw [dictOfZip_go (renamePairs "P1_" pi) [] h1 (by simp)]
    simpa using renamePairs_length "P1_" pi
  · unfold dictOfZip
    rw [dictOfZip_go (renamePairs "P2_" pi) [] h2 (by simp)]
    simpa using renamePairs_length "P2_" pi

/-- C8 witness: the amended statement at a table with two distinct-source
P1_ rows, one P2_ row and one null-source P1_ row. -/
theorem c8_witness :
    (dictOfZip (renamePairs "P1_" piSizes)).length
        = (piSizes.filter (fun r => optContains r.code "P1_" && r.src.isSome)).length ∧
      (dictOfZip (renamePairs "P2_" piSizes)).length
        = (piSizes.filter (fun r => optContains r.code "P2_" && r.src.isSome)).length :=
  c8_dict_sizes piSizes (by decide) (by decide)

/- ------------------------------------------------------------------ -/
/- Helper lemmas on strings and lookups for the merge                 -/
/- ------------------------------------------------------------------ -/

/-- Character content of an appended string. -/
theorem data_append (s u : String) : (s ++ u).data = s.data ++ u.data := by
  cases s; cases u; rfl

/-- The last character of an appended string comes from a non-empty second
part. -/
theorem append_last (c s : String) (h : s.data ≠ []) :
    (c ++ s).data.getLast? = s.data.getLast? := by
  rw [data_append, List.getLast?_append]
  cases hs : s.data.getLast? with
  | none => exact absurd (List.getLast?_eq_none_iff.mp hs) h
  | some x => rfl

/-- A string obtained by appending a non-empty suffix differs from any
string with another last character. -/
theorem suffix_ne (c s t0 : String) (hs : s.data ≠ [])
    (h : s.data.getLast? ≠ t0.data.getLast?) : c ++ s ≠ t0 := by
  intro he
  apply h
  rw [← append_last c s hs, he]

/-- Merge suffixing never fabricates or destroys the key label. -/
theorem suffixIf_beq_wafer (other : List String) (sfx : String)
    (hsfx : ∀ c : String, c ++ sfx ≠ "WAFER_ID") (c : String) :
    (suffixIf other sfx c == "WAFER_ID") = (c == "WAFER_ID") := by
  unfold suffixIf
  by_cases hw : (c == "WAFER_ID") = true
  · rw [if_pos hw]
  · rw [if_neg hw]
    by_cases ho : other.contains c = true
    · rw [if_pos ho]
      have h1 : (c ++ sfx == "WAFER_ID") = false := by
        simp [hsfx c]
      rw [h1, Bool.eq_false_iff.mpr hw]
    · rw [if_neg ho]

/-- Searching the key in a suffix-renamed row finds the image of the
original key cell. -/
theorem find_wafer_map_suffix (other : List String) (sfx : String)
    (hsfx : ∀ c : String, c ++ sfx ≠ "WAFER_ID") (l : Row) :
    (l.map (fun p => (suffixIf other sfx p.1, p.2))).find? (fun p => p.1 == "WAFER_ID")
      = (l.find? (fun p => p.1 == "WAFER_ID")).map
          (fun p => (suffixIf other sfx p.1, p.2)) := by
  induction l with
  | nil => rfl
  | cons p t ih =>
    rw [List.map_cons]
    by_cases hw : (p.1 == "WAFER_ID") = true
    · rw [List.find?_cons_of_pos _ (by rw [suffixIf_beq_wafer other sfx hsfx]; exact hw)]
      rw [List.find?_cons_of_pos (p := fun q : String × Val => q.1 == "WAFER_ID") _ hw]
      rfl
    · rw [List.find?_cons_of_neg _ (by rw [suffixIf_beq_wafer other sfx hsfx]; simpa using hw)]
      rw [List.find?_cons_of_neg (p := fun q : String × Val => q.1 == "WAFER_ID") _ hw]
      exact ih

/-- The joined row carries the left row's wafer value. -/
theorem getVal_joinRow_wafer (acols bcols : List String) (ra rb : Row) (v : Val)
    (h : getVal ra "WAFER_ID" = some v) :
    getVal (joinRow acols bcols ra rb) "WAFER_ID" = some v := by
  unfold getVal at h ⊢
  obtain ⟨p0, hf, hsnd⟩ := Option.map_eq_some'.mp h
  have hx : ∀ c : String, c ++ "_x" ≠ "WAFER_ID" :=
    fun c => suffix_ne c "_x" "WAFER_ID" (by decide) (by decide)
  have hleft : (ra.map (fun p => (suffixIf bcols "_x" p.1, p.2))).find?
      (fun p => p.1 == "WAFER_ID") = some (suffixIf bcols "_x" p0.1, p0.2) := by
    rw [find_wafer_map_suffix bcols "_x" hx ra, hf]
    rfl
  unfold joinRow
  rw [find_append_some _ _ _ _ hleft]
  simp [hsnd]

/-- The POLISH assignment does not change the wafer values of a frame. -/
theorem waferVals_assignPolish (f : Row → Val) (df : DataFrame) :
    waferVals (assignCol "POLISH" f df) = waferVals df := by
  unfold waferVals assignCol
  rw [List.filterMap_map]
  have hfx : ((fun r => getVal r "WAFER_ID") ∘ fun r => setCol "POLISH" (f r) r)
      = fun r : Row => getVal r "WAFER_ID" := by
    funext r
    exact getVal_setCol_ne "POLISH" "WAFER_ID" (f r) r (by decide)
  rw [hfx]

/-- A wafer value occurs in the inner merge exactly when it occurs on both
sides. -/
theorem mem_waferVals_merge (A B : DataFrame) (v : Val) :
    v ∈ waferVals (mergeInner A B) ↔ v ∈ waferVals A ∧ v ∈ waferVals B := by
  unfold waferVals mergeInner
  simp only [List.mem_filterMap, List.mem_flatMap, List.mem_map, List.mem_filter]
  constructor
  · rintro ⟨row, ⟨ra, hra, rb, ⟨hrb, hkm⟩, rfl⟩, hget⟩
    unfold keyMatch at hkm
    rcases ha : getVal ra "WAFER_ID" with _ | a
    · rw [ha] at hkm
      simp at hkm
    · rcases hb : getVal rb "WAFER_ID" with _ | b
      · rw [ha, hb] at hkm
        simp at hkm
      · rw [ha, hb] at hkm
        have hab : a = b := of_decide_eq_true hkm
        have hrow : getVal (joinRow A.cols B.cols ra rb) "WAFER_ID" = some a :=
          getVal_joinRow_wafer A.cols B.cols ra rb a ha
        rw [hrow] at hget
        have hv : a = v := by injection hget
        exact ⟨⟨ra, hra, by rw [ha, hv]⟩, ⟨rb, hrb, by rw [hb, ← hab, hv]⟩⟩
  · rintro ⟨⟨ra, hra, ha⟩, ⟨rb, hrb, hb⟩⟩
    refine ⟨joinRow A.cols B.cols ra rb, ⟨ra, hra, rb, ⟨hrb, ?_⟩, rfl⟩, ?_⟩
    · unfold keyMatch
      rw [ha, hb]
      exact decide_eq_true rfl
    · exact getVal_joinRow_wafer A.cols B.cols ra rb v ha

/-- C7: the AB pairing contains a wafer value exactly when both the renamed
PolishA subset and the (base-dropped) renamed PolishB subset contain it;
the hypotheses record the key-column presence pandas requires of both merge
inputs. -/
theorem c7_ab_wafers_iff (paraInfo : List ParaRow) (data : DataFrame) (v : Val)
    (hA : (renamedA paraInfo data).cols.contains "WAFER_ID" = true)
    (hB : (renamedBdropped paraInfo data).cols.contains "WAFER_ID" = true) :
    v ∈ waferVals (polishAB paraInfo data) ↔
      v ∈ waferVals (renamedA paraInfo data) ∧
        v ∈ waferVals (renamedBdropped paraInfo data) := by
  unfold polishAB
  rw [waferVals_assignPolish]
  exact mem_waferVals_merge _ _ v

/-- C7 witness: with PolishA wafers w1, w2 and PolishB wafers w2, w3, the
AB pairing contains w2 and not w1. -/
theorem c7_witness :
    (Val.str "w2") ∈ waferVals (polishAB [] dataW7) ∧
      ¬ (Val.str "w1") ∈ waferVals (polishAB [] dataW7) :=
  ⟨(c7_ab_wafers_iff [] dataW7 (Val.str "w2") (by decide) (by decide)).mpr
      ⟨by decide, by decide⟩,
   fun hmem =>
     absurd ((c7_ab_wafers_iff [] dataW7 (Val.str "w1") (by decide) (by decide)).mp
        hmem).2 (by decide)⟩

/- ------------------------------------------------------------------ -/
/- Helper lemmas for the MODULE / POLISH invariant                    -/
/- ------------------------------------------------------------------ -/

/-- No column label or row cell label of the frame is MODULE. -/
def noModuleNames (df : DataFrame) : Prop :=
  (∀ c ∈ df.cols, c ≠ "MODULE") ∧ ∀ r ∈ df.rows, ∀ p ∈ r, p.1 ≠ "MODULE"

/-- Dropping the MODULE column removes every MODULE label. -/
theorem noModule_dropColFrame (df : DataFrame) :
    noModuleNames (dropColFrame "MODULE" df) := by
  constructor
  · intro c hc
    simp only [dropColFrame] at hc
    rw [List.mem_filter] at hc
    simpa using hc.2
  · intro r hr p hp
    simp only [dropColFrame] at hr
    rw [List.mem_map] at hr
    obtain ⟨r0, _, rfl⟩ := hr
    rw [List.mem_filter] at hp
    simpa using hp.2

/-- Dropping further columns preserves the absence of MODULE labels. -/
theorem noModule_dropColsFrame (cs : List String) (df : DataFrame)
    (h : noModuleNames df) : noModuleNames (dropColsFrame cs df) := by
  constructor
  · intro c hc
    simp only [dropColsFrame] at hc
    rw [List.mem_filter] at hc
    exact h.1 c hc.1
  · intro r hr p hp
    simp only [dropColsFrame] at hr
    rw [List.mem_map] at hr
    obtain ⟨r0, hr0, rfl⟩ := hr
    rw [List.mem_filter] at hp
    exact h.2 r0 hr0 p hp.1

/-- Membership of an element of a freshly inserted dict: it is the inserted
value or was already present. -/
theorem dictInsert_mem_snd (d : List (String × String)) (k v : String)
    (q : String × String) (hq : q ∈ dictInsert d k v) : q.2 = v ∨ q ∈ d := by
  unfold dictInsert at hq
  by_cases hany : d.any (fun p => p.1 == k) = true
  · rw [if_pos hany] at hq
    rw [List.mem_map] at hq
    obtain ⟨p0, hp0, rfl⟩ := hq
    by_cases hc : (p0.1 == k) = true
    · left; simp [hc]
    · right
      have hh : ((if p0.1 == k then (k, v) else p0) : String × String) = p0 := by
        simp [hc]
      rw [hh]
      exact hp0
  · rw [if_neg hany] at hq
    rw [List.mem_append] at hq
    rcases hq with h1 | h1
    · right; exact h1
    · left
      rw [List.mem_singleton] at h1
      rw [h1]

/-- Values surviving the dict build all come from the zipped pairs. -/
theorem foldl_dict_snd (ps : List (String × String)) :
    ∀ (d : List (String × String)) (q : String × String),
      q ∈ ps.foldl (fun d p => dictInsert d p.1 p.2) d →
      q.2 ∈ d.map Prod.snd ∨ q.2 ∈ ps.map Prod.snd := by
  induction ps with
  | nil =>
    intro d q hq
    left
    exact List.mem_map_of_mem _ hq
  | cons p t ih =>
    intro d q hq
    rw [List.foldl_cons] at hq
    rcases ih (dictInsert d p.1 p.2) q hq with h1 | h1
    · rw [List.mem_map] at h1
      obtain ⟨q0, hq0, hsnd⟩ := h1
      rcases dictInsert_mem_snd d p.1 p.2 q0 hq0 with h2 | h2
      · right
        rw [List.map_cons, ← hsnd, h2]
        exact List.mem_cons_self _ _
      · left
        rw [← hsnd]
        exact List.mem_map_of_mem _ h2
    · right
      rw [List.map_cons]
      exact List.mem_cons_of_mem _ h1

/-- Values of the finished dict all come from the zipped pairs. -/
theorem dictOfZip_snd_sub (ps : List (String × String)) (q : String × String)
    (hq : q ∈ dictOfZip ps) : q.2 ∈ ps.map Prod.snd := by
  rcases foldl_dict_snd ps [] q hq with h | h
  · simp at h
  · exact h

/-- Every value of a group rename dict contains the group marker. -/
theorem dict_vals_marker (marker : String) (pi : List ParaRow) (k v : String)
    (h : dictGet (dictOfZip (renamePairs marker pi)) k = some v) :
    containsSubstr v marker = true := by
  unfold dictGet at h
  obtain ⟨q, hfind, hsnd⟩ := Option.map_eq_some'.mp h
  have hq : q ∈ dictOfZip (renamePairs marker pi) := List.mem_of_find?_eq_some hfind
  have hsub : q.2 ∈ (renamePairs marker pi).map Prod.snd := dictOfZip_snd_sub _ q hq
  rw [List.mem_map] at hsub
  obtain ⟨pr, hpr, hpq⟩ := hsub
  unfold renamePairs at hpr
  rw [List.mem_filterMap] at hpr
  obtain ⟨r0, hr0, hmatch⟩ := hpr
  rw [List.mem_filter] at hr0
  rcases hcode : r0.code with _ | c0
  · rw [hcode] at hmatch
    simp at hmatch
  · rcases hsrc : r0.src with _ | s0
    · rw [hcode, hsrc] at hmatch
      simp at hmatch
    · rw [hcode, hsrc] at hmatch
      have hpr2 : pr = (s0, c0) := by
        injection hmatch with h'
        exact h'.symm
      have hoc := hr0.2
      rw [hcode] at hoc
      rw [← hsnd, ← hpq, hpr2]
      exact hoc

/-- A label renamed through a group dict is never MODULE when the original
label is not MODULE and the group marker does not occur in MODULE. -/
theorem renameLabel_marker_ne (marker : String) (pi : List ParaRow) (c : String)
    (hm : containsSubstr "MODULE" marker = false) (hc : c ≠ "MODULE") :
    renameLabel (dictOfZip (renamePairs marker pi)) c ≠ "MODULE" := by
  unfold renameLabel
  cases hg : dictGet (dictOfZip (renamePairs marker pi)) c with
  | none => simpa using hc
  | some v =>
    have hv := dict_vals_marker marker pi c v hg
    intro he
    have hv' : v = "MODULE" := by simpa using he
    rw [hv'] at hv
    rw [hv] at hm
    cases hm

/-- Frame-wide renaming through a group dict preserves the absence of
MODULE labels. -/
theorem noModule_renameFrame (marker : String) (pi : List ParaRow) (df : DataFrame)
    (hm : containsSubstr "MODULE" marker = false) (h : noModuleNames df) :
    noModuleNames (renameFrame (dictOfZip (renamePairs marker pi)) df) := by
  constructor
  · intro c hc
    simp only [renameFrame] at hc
    rw [List.mem_map] at hc
    obtain ⟨c0, hc0, rfl⟩ := hc
    exact renameLabel_marker_ne marker pi c0 hm (h.1 c0 hc0)
  · intro r hr p hp
    simp only [renameFrame] at hr
    rw [List.mem_map] at hr
    obtain ⟨r0, hr0, rfl⟩ := hr
    rw [List.mem_map] at hp
    obtain ⟨p0, hp0, rfl⟩ := hp
    exact renameLabel_marker_ne marker pi p0.1 hm (h.2 r0 hr0 p0 hp0)

/-- The P1 rename step preserves the absence of MODULE labels. -/
theorem noModule_rename_polishAC (pi : List ParaRow) (df : DataFrame)
    (h : noModuleNames df) : noModuleNames (rename_columns_polishAC pi df) := by
  unfold rename_columns_polishAC
  by_cases hc : (df.rows.isEmpty || pi.isEmpty) = true
  · rw [if_pos hc]; exact h
  · rw [if_neg hc]
    exact noModule_renameFrame "P1_" pi df (by decide) h

/-- The P2 rename step preserves the absence of MODULE labels. -/
theorem noModule_rename_polishBD (pi : List ParaRow) (df : DataFrame)
    (h : noModuleNames df) : noModuleNames (rename_columns_polishBD pi df) := by
  unfold rename_columns_polishBD
  by_cases hc : (df.rows.isEmpty || pi.isEmpty) = true
  · rw [if_pos hc]; exact h
  · rw [if_neg hc]
    exact noModule_renameFrame "P2_" pi df (by decide) h

/-- Merge suffixing never produces the label MODULE from non-MODULE
labels. -/
theorem suffixIf_ne_module (other : List String) (sfx : String) (c : String)
    (hc : c ≠ "MODULE") (hsfx : ∀ c0 : String, c0 ++ sfx ≠ "MODULE") :
    suffixIf other sfx c ≠ "MODULE" := by
  unfold suffixIf
  by_cases hw : (c == "WAFER_ID") = true
  · rw [if_pos hw]; exact hc
  · rw [if_neg hw]
    by_cases ho : other.contains c = true
    · rw [if_pos ho]; exact hsfx c
    · rw [if_neg ho]; exact hc

/-- The inner merge preserves the absence of MODULE labels. -/
theorem noModule_merge (A B : DataFrame)
    (hA : noModuleNames A) (hB : noModuleNames B) :
    noModuleNames (mergeInner A B) := by
  have hx : ∀ c0 : String, c0 ++ "_x" ≠ "MODULE" :=
    fun c0 => suffix_ne c0 "_x" "MODULE" (by decide) (by decide)
  have hy : ∀ c0 : String, c0 ++ "_y" ≠ "MODULE" :=
    fun c0 => suffix_ne c0 "_y" "MODULE" (by decide) (by decide)
  constructor
  · intro c hc
    simp only [mergeInner] at hc
    rw [List.mem_append] at hc
    rcases hc with h1 | h1
    · rw [List.mem_map] at h1
      obtain ⟨c0, hc0, rfl⟩ := h1
      exact suffixIf_ne_module B.cols "_x" c0 (hA.1 c0 hc0) hx
    · rw [List.mem_map] at h1
      obtain ⟨c0, hc0, rfl⟩ := h1
      rw [List.mem_filter] at hc0
      exact suffixIf_ne_module A.cols "_y" c0 (hB.1 c0 hc0.1) hy
  · intro r hr p hp
    simp only [mergeInner] at hr
    rw [List.mem_flatMap] at hr
    obtain ⟨ra, hra, hmap⟩ := hr
    rw [List.mem_map] at hmap
    obtain ⟨rb, hrbf, rfl⟩ := hmap
    rw [List.mem_filter] at hrbf
    unfold joinRow at hp
    rw [List.mem_append] at hp
    rcases hp with h1 | h1
    · rw [List.mem_map] at h1
      obtain ⟨p0, hp0, rfl⟩ := h1
      exact suffixIf_ne_module B.cols "_x" p0.1 (hA.2 ra hra p0 hp0) hx
    · rw [List.mem_map] at h1
      obtain ⟨p0, hp0, rfl⟩ := h1
      rw [List.mem_filter] at hp0
      exact suffixIf_ne_module A.cols "_y" p0.1 (hB.2 rb hrbf.1 p0 hp0.1) hy

/-- Cells of a row after a column assignment: the assigned label or an
original cell. -/
theorem setCol_names (n : String) (v : Val) (r : Row) (p : String × Val)
    (hp : p ∈ setCol n v r) : p.1 = n ∨ p ∈ r := by
  unfold setCol at hp
  by_cases hany : r.any (fun q => q.1 == n) = true
  · rw [if_pos hany] at hp
    rw [List.mem_map] at hp
    obtain ⟨q0, hq0, rfl⟩ := hp
    by_cases hq : (q0.1 == n) = true
    · left; simp [hq]
    · right
      have hh : ((if q0.1 == n then (n, v) else q0) : String × Val) = q0 := by
        simp [hq]
      rw [hh]
      exact hq0
  · rw [if_neg hany] at hp
    rw [List.mem_append] at hp
    rcases hp with h1 | h1
    · right; exact h1
    · left
      rw [List.mem_singleton] at h1
      rw [h1]

/-- The POLISH assignment preserves the absence of MODULE labels. -/
theorem noModule_assignPolish (f : Row → Val) (df : DataFrame)
    (h : noModuleNames df) : noModuleNames (assignCol "POLISH" f df) := by
  constructor
  · intro c hc
    simp only [assignCol] at hc
    by_cases hin : df.cols.contains "POLISH" = true
    · rw [if_pos hin] at hc
      exact h.1 c hc
    · rw [if_neg hin] at hc
      rw [List.mem_append] at hc
      rcases hc with h1 | h1
      · exact h.1 c h1
      · rw [List.mem_singleton] at h1
        rw [h1]
        decide
  · intro r hr p hp
    simp only [assignCol] at hr
    rw [List.mem_map] at hr
    obtain ⟨r0, hr0, rfl⟩ := hr
    rcases setCol_names "POLISH" (f r0) r0 p hp with h1 | h1
    · rw [h1]; decide
    · exact h.2 r0 hr0 p h1

/-- Every row of a POLISH-labelled frame carries the label. -/
theorem assign_polish_val (lab : Val) (df : DataFrame) (r : Row)
    (hr : r ∈ (assignCol "POLISH" (fun _ => lab) df).rows) :
    getVal r "POLISH" = some lab := by
  simp only [assignCol] at hr
  rw [List.mem_map] at hr
  obtain ⟨r0, _, rfl⟩ := hr
  exact getVal_setCol "POLISH" lab r0

/-- The AB pairing carries no MODULE label. -/
theorem polishAB_noModule (pi : List ParaRow) (data : DataFrame) :
    noModuleNames (polishAB pi data) := by
  unfold polishAB
  apply noModule_assignPolish
  apply noModule_merge
  · exact noModule_rename_polishAC pi _ (noModule_dropColFrame _)
  · exact noModule_dropColsFrame base_col _
      (noModule_rename_polishBD pi _ (noModule_dropColFrame _))

/-- The CD pairing carries no MODULE label. -/
theorem polishCD_noModule (pi : List ParaRow) (data : DataFrame) :
    noModuleNames (polishCD pi data) := by
  unfold polishCD
  apply noModule_assignPolish
  apply noModule_merge
  · exact noModule_rename_polishAC pi _ (noModule_dropColFrame _)
  · exact noModule_dropColsFrame base_col _
      (noModule_rename_polishBD pi _ (noModule_dropColFrame _))

/-- A column of a concatenated frame comes from one of its parts. -/
theorem concat_cols_mem (dfs : List DataFrame) (c : String)
    (hc : c ∈ (concatFrames dfs).cols) : ∃ df ∈ dfs, c ∈ df.cols := by
  suffices h : ∀ (l : List DataFrame) (acc : List String),
      c ∈ l.foldl (fun acc df => acc ++ df.cols.filter (fun x => !(acc.contains x))) acc →
      c ∈ acc ∨ ∃ df ∈ l, c ∈ df.cols by
    rcases h dfs [] hc with h1 | h1
    · simp at h1
    · exact h1
  intro l
  induction l with
  | nil =>
    intro acc hacc
    left
    exact hacc
  | cons df0 t ih =>
    intro acc hacc
    rw [List.foldl_cons] at hacc
    rcases ih _ hacc with h1 | h1
    · rw [List.mem_append] at h1
      rcases h1 with h2 | h2
      · left; exact h2
      · right
        rw [List.mem_filter] at h2
        exact ⟨df0, by simp, h2.1⟩
    · right
      obtain ⟨df1, hdf1, hcc⟩ := h1
      exact ⟨df1, by simp [hdf1], hcc⟩

/-- The MODULE / POLISH invariant transfers from the parts to the
row-wise concatenation. -/
theorem concat_pair_props (dfs : List DataFrame)
    (hall : ∀ df ∈ dfs, noModuleNames df ∧ ∀ r ∈ df.rows,
        getVal r "POLISH" = some (Val.str "AB") ∨
          getVal r "POLISH" = some (Val.str "CD")) :
    (∀ c ∈ (concatFrames dfs).cols, c ≠ "MODULE") ∧
      ∀ r ∈ (concatFrames dfs).rows,
        (getVal r "POLISH" = some (Val.str "AB") ∨
          getVal r "POLISH" = some (Val.str "CD")) ∧
        ∀ p ∈ r, p.1 ≠ "MODULE" := by
  constructor
  · intro c hc
    obtain ⟨df, hdf, hcc⟩ := concat_cols_mem dfs c hc
    exact (hall df hdf).1.1 c hcc
  · intro r hr
    simp only [concatFrames] at hr
    rw [List.mem_flatMap] at hr
    obtain ⟨df, hdf, hrr⟩ := hr
    exact ⟨(hall df hdf).2 r hrr, fun p hp => (hall df hdf).1.2 r hrr p hp⟩

/-- The four possible shapes of the merge-and-concatenate tail. -/
theorem processCore_cases (pi : List ParaRow) (data : DataFrame) :
    processCore pi data = { cols := [], rows := [] } ∨
      processCore pi data = concatFrames [polishAB pi data] ∨
      processCore pi data = concatFrames [polishCD pi data] ∨
      processCore pi data = concatFrames [polishAB pi data, polishCD pi data] := by
  unfold processCore
  by_cases h1 : (!(renamedA pi data).rows.isEmpty &&
      !(renamedBdropped pi data).rows.isEmpty) = true
  · by_cases h2 : (!(renamedC pi data).rows.isEmpty &&
        !(renamedDdropped pi data).rows.isEmpty) = true
    · rw [if_pos h1, if_pos h2]
      right; right; right; rfl
    · rw [if_pos h1, if_neg h2]
      right; left; rfl
  · by_cases h2 : (!(renamedC pi data).rows.isEmpty &&
        !(renamedDdropped pi data).rows.isEmpty) = true
    · rw [if_neg h1, if_pos h2]
      right; right; left; rfl
    · rw [if_neg h1, if_neg h2]
      left; rfl

/- ------------------------------------------------------------------ -/
/- Theorems for the process invariant claim                           -/
/- ------------------------------------------------------------------ -/

/-- C10 counterexample: a non-empty input without a MODULE column is
returned unchanged by process, non-empty and with no POLISH cell on any
row, so not every row of a non-empty returned table carries POLISH. -/
theorem c10_no_polish_without_module :
    (process [] dataNoModule).rows ≠ [] ∧
      (process [] dataNoModule).rows.all
        (fun r => (getVal r "POLISH").isNone) = true := by
  constructor
  · decide
  · decide

/-- C10 amended: when the input passes validation and carries a MODULE
column, every column of the processed frame differs from MODULE, and every
row carries POLISH AB or POLISH CD and no MODULE cell.  (When MODULE is
absent or validation fails the input comes back unchanged, so the original
claim fails; see the counterexample.) -/
theorem c10_polish_invariant (pi : List ParaRow) (data : DataFrame)
    (hv : validateInput data = true)
    (hm : data.cols.contains "MODULE" = true) :
    (∀ c ∈ (process pi data).cols, c ≠ "MODULE") ∧
      ∀ r ∈ (process pi data).rows,
        (getVal r "POLISH" = some (Val.str "AB") ∨
          getVal r "POLISH" = some (Val.str "CD")) ∧
        ∀ p ∈ r, p.1 ≠ "MODULE" := by
  have hproc : process pi data = processCore pi data := by
    unfold process
    rw [hv, hm]
    simp
  rw [hproc]
  have habprops : noModuleNames (polishAB pi data) ∧
      ∀ r ∈ (polishAB pi data).rows,
        getVal r "POLISH" = some (Val.str "AB") ∨
          getVal r "POLISH" = some (Val.str "CD") :=
    ⟨polishAB_noModule pi data,
     fun r hr => Or.inl (assign_polish_val (Val.str "AB") _ r hr)⟩
  have hcdprops : noModuleNames (polishCD pi data) ∧
      ∀ r ∈ (polishCD pi data).rows,
        getVal r "POLISH" = some (Val.str "AB") ∨
          getVal r "POLISH" = some (Val.str "CD") :=
    ⟨polishCD_noModule pi data,
     fun r hr => Or.inr (assign_polish_val (Val.str "CD") _ r hr)⟩
  rcases processCore_cases pi data with h | h | h | h <;> rw [h]
  · constructor
    · intro c hc
      simp at hc
    · intro r hr
      simp at hr
  · refine concat_pair_props _ ?_
    intro df hdf
    rw [List.mem_singleton] at hdf
    rw [hdf]
    exact habprops
  · refine concat_pair_props _ ?_
    intro df hdf
    rw [List.mem_singleton] at hdf
    rw [hdf]
    exact hcdprops
  · refine concat_pair_props _ ?_
    intro df hdf
    rcases List.mem_pair.mp hdf with h1 | h1 <;> rw [h1]
    · exact habprops
    · exact hcdprops

/-- C10 witness: the amended statement evaluated at a two-row table whose
single AB pairing row carries POLISH AB. -/
theorem c10_witness :
    getVal rowW10 "POLISH" = some (Val.str "AB") ∨
      getVal rowW10 "POLISH" = some (Val.str "CD") :=
  ((c10_polish_invariant [] dataW10 (by decide) (by decide)).2 rowW10 (by decide)).1
